import Mathlib

/-!
Verification of the State-intro list widget (src/src/App.jsx).

The program is a React application with three components:
`ListItem` renders one string as an `<li>`, `List` renders an array of
strings as a `<ul>` of `ListItem`s keyed by index, and `App` holds the
state (`inputValue`, `items`) with handlers `handleChange` and
`handleSubmit`, rendering either `List` or an empty-state placeholder.

We embed the state, the two event handlers and the rendering functions
shallowly: state updates become pure functions on an `AppState` record,
the DOM output becomes a `Node` tree, and the form event (whose only
behaviourally relevant part is `preventDefault`) becomes a record with
a `defaultPrevented` flag.
-/

namespace StateIntro

/-- Characters removed by JavaScript `String.prototype.trim`:
the WhiteSpace production (tab, VT, FF, space, NBSP, BOM, and the
Unicode Zs space separators) and the LineTerminator production
(LF, CR, LS, PS). -/
def isJsWhitespace (c : Char) : Bool :=
  c == ' ' || c == '\t' || c == '\n' || c == '\r' ||
  c == '\x0B' || c == '\x0C' ||
  c == '\u00A0' || c == '\uFEFF' ||
  c == '\u1680' ||
  (0x2000 ≤ c.toNat && c.toNat ≤ 0x200A) ||
  c == '\u2028' || c == '\u2029' ||
  c == '\u202F' || c == '\u205F' ||
  c == '\u3000'

/-- JavaScript `s.trim()`: drop leading and trailing whitespace. -/
def jsTrim (s : String) : String :=
  ⟨((s.data.dropWhile isJsWhitespace).reverse.dropWhile isJsWhitespace).reverse⟩

/-- A rendered DOM tree. `elem tag className key children` models a JSX
element (the `key` is the React list key attached at the use site);
`input` models the controlled `<input>` with its `value` and placeholder
attributes; `text` is a text node. -/
inductive Node where
  | elem (tag : String) (className : String) (key : Option Nat) (children : List Node)
  | input (className : String) (value : String) (placeholderText : String)
  | text (s : String)

/-- The tag of an element node, if any. -/
def Node.tagOf : Node → Option String
  | .elem t _ _ _ => some t
  | .input _ _ _ => some "input"
  | .text _ => none

/-- The children of a node (text and input nodes have none). -/
def Node.childrenOf : Node → List Node
  | .elem _ _ _ ch => ch
  | .input _ _ _ => []
  | .text _ => []

/-- Attach a React list key to an element, as `key={index}` does. -/
def withKey (k : Nat) : Node → Node
  | .elem t c _ ch => .elem t c (some k) ch
  | .input c v p => .input c v p
  | .text s => .text s

/-- JavaScript `Array.prototype.map` with the element index as second
callback argument, starting the index count at `n`. -/
def mapWithIndexFrom (f : Nat → α → β) : Nat → List α → List β
  | _, [] => []
  | n, a :: as => f n a :: mapWithIndexFrom f (n + 1) as

/-- JavaScript `items.map((item, index) => ...)`. -/
def mapWithIndex (f : Nat → α → β) (l : List α) : List β :=
  mapWithIndexFrom f 0 l

/-- The `ListItem` component: one `<li>` whose content is the item text. -/
def ListItem (item : String) : Node :=
  .elem "li"
    "bg-gray-50 p-3 rounded-md shadow-sm text-gray-700 flex items-center justify-between"
    none [.text item]

/-- The `List` component (named `ListComponent` here to avoid clashing
with `List`): a `<ul>` with one `ListItem` per element of `items`,
keyed by index via `items.map((item, index) => <ListItem key={index} item={item} />)`. -/
def ListComponent (items : List String) : Node :=
  .elem "ul" "list-none p-0 space-y-2" none
    (mapWithIndex (fun index item => withKey index (ListItem item)) items)

/-- The state of the `App` component: the `inputValue` and `items`
`useState` hooks. -/
structure AppState where
  inputValue : String
  items : List String
deriving DecidableEq, Repr

/-- Both hooks start empty: `useState('')` and `useState([])`. -/
def initialState : AppState := ⟨"", []⟩

/-- The form submission event; the only behaviourally relevant part is
whether the platform default (page reload) has been suppressed. -/
structure FormEvent where
  defaultPrevented : Bool
deriving DecidableEq, Repr

/-- JavaScript `event.preventDefault()`. -/
def preventDefault (e : FormEvent) : FormEvent :=
  { e with defaultPrevented := true }

/-- The `handleChange` handler: `setInputValue(event.target.value)`;
`newText` stands for `event.target.value`. -/
def handleChange (newText : String) (st : AppState) : AppState :=
  { st with inputValue := newText }

/-- The `handleSubmit` handler: `event.preventDefault()` first, then if
`inputValue.trim() !== ''` it runs `setItems([...items, inputValue])`
and `setInputValue('')`, else nothing. Returns the updated event and
the updated state. -/
def handleSubmit (e : FormEvent) (st : AppState) : FormEvent × AppState :=
  let e1 := preventDefault e
  if jsTrim st.inputValue ≠ "" then
    (e1, { inputValue := "", items := st.items ++ [st.inputValue] })
  else
    (e1, st)

/-- A user-generated UI event: an input change or a form submission. -/
inductive Event where
  | change (newText : String)
  | submit (e : FormEvent)

/-- One state transition of the `App` component. -/
def step (st : AppState) : Event → AppState
  | .change s => handleChange s st
  | .submit e => (handleSubmit e st).2

/-- The state after running a sequence of events from the initial state. -/
def run (evs : List Event) : AppState :=
  evs.foldl step initialState

/-- The empty-state placeholder paragraph. -/
def placeholder : Node :=
  .elem "p" "text-center text-gray-500" none [.text "No items yet. Add something!"]

/-- The conditional rendering: `items.length > 0 ? <List items={items} /> : <p>...</p>`. -/
def listArea (items : List String) : Node :=
  if items.length > 0 then ListComponent items else placeholder

/-- The `<h1>` heading. -/
def header : Node :=
  .elem "h1" "text-3xl font-bold text-blue-800 mb-6 text-center" none
    [.text "My Awesome List"]

/-- The controlled `<input>` with `value={inputValue}`. -/
def inputBox (st : AppState) : Node :=
  .input
    "flex-grow p-3 border border-gray-300 rounded-md focus:outline-none focus:ring-2 focus:ring-blue-500"
    st.inputValue "Enter a new item..."

/-- The submit `<button>`. -/
def addButton : Node :=
  .elem "button"
    "px-5 py-3 bg-blue-600 text-white rounded-md font-semibold hover:bg-blue-700 focus:outline-none focus:ring-2 focus:ring-blue-500 focus:ring-offset-2 transition-colors"
    none [.text "Add"]

/-- The `<form>` wrapping input and button. -/
def formNode (st : AppState) : Node :=
  .elem "form" "flex gap-2 mb-6" none [inputBox st, addButton]

/-- The JSX returned by the `App` component. -/
def renderApp (st : AppState) : Node :=
  .elem "div" "" none
    [.elem "div" "" none [header, formNode st, listArea st.items]]

/-- A render pass: it reads the state and produces output; it calls no
state setter, so the state comes back unchanged. -/
def renderStep (st : AppState) : Node × AppState :=
  (renderApp st, st)

/-- The ItemList invariant: no stored element trims to the empty string. -/
def validItems (items : List String) : Prop :=
  ∀ x ∈ items, jsTrim x ≠ ""

/-- Helper: a single transition preserves the ItemList invariant. -/
theorem step_preserves_valid (st : AppState) (ev : Event)
    (h : validItems st.items) : validItems (step st ev).items := by
  cases ev with
  | change s => exact h
  | submit e =>
    by_cases hc : jsTrim st.inputValue ≠ ""
    · intro x hx
      simp only [step, handleSubmit, if_pos hc] at hx
      rcases List.mem_append.mp hx with hmem | hmem
      · exact h x hmem
      · rw [List.mem_singleton.mp hmem]
        exact hc
    · intro x hx
      simp only [step, handleSubmit, if_neg hc] at hx
      exact h x hx

/-- Helper: folding transitions preserves the ItemList invariant. -/
theorem foldl_step_valid (evs : List Event) :
    ∀ st : AppState, validItems st.items → validItems (evs.foldl step st).items := by
  induction evs with
  | nil => intro st h; exact h
  | cons ev evs ih =>
    intro st h
    exact ih _ (step_preserves_valid st ev h)

/-- C1: if the draft text `s` is non-empty after trimming, submitting
appends exactly the original untrimmed `s` as the last element of the
item list and resets the draft text to the empty string. -/
theorem submit_valid_appends (s : String) (e : FormEvent) (st : AppState)
    (hs : jsTrim s ≠ "") (hdraft : st.inputValue = s) :
    (handleSubmit e st).2.items = st.items ++ [s] ∧
      (handleSubmit e st).2.inputValue = "" := by
  subst hdraft
  simp [handleSubmit, hs]

/-- Witness for C1 at the concrete draft "Milk" over the prior list ["Eggs"]. -/
theorem submit_valid_appends_witness :
    jsTrim "Milk" ≠ "" ∧
      (handleSubmit ⟨false⟩ ⟨"Milk", ["Eggs"]⟩).2.items = ["Eggs"] ++ ["Milk"] ∧
      (handleSubmit ⟨false⟩ ⟨"Milk", ["Eggs"]⟩).2.inputValue = "" :=
  ⟨by decide, submit_valid_appends "Milk" ⟨false⟩ ⟨"Milk", ["Eggs"]⟩ (by decide) rfl⟩

/-- C2: if the draft text `s` is empty after trimming, submitting leaves
the whole application state (item list and draft text) unchanged; the
handler is total, so no fault is raised. -/
theorem submit_blank_noop (s : String) (e : FormEvent) (st : AppState)
    (hs : jsTrim s = "") (hdraft : st.inputValue = s) :
    (handleSubmit e st).2 = st := by
  subst hdraft
  simp [handleSubmit, hs]

/-- Witness for C2 at the concrete whitespace-only draft of one tab. -/
theorem submit_blank_noop_witness :
    jsTrim "\t" = "" ∧ (handleSubmit ⟨true⟩ ⟨"\t", ["Milk"]⟩).2 = ⟨"\t", ["Milk"]⟩ :=
  ⟨by decide, submit_blank_noop "\t" ⟨true⟩ ⟨"\t", ["Milk"]⟩ (by decide) rfl⟩

/-- C7: the change handler unconditionally sets the draft text to the
new text and leaves the item list unchanged, for every state and every
new text; it is a total function, so there is no failure mode. -/
theorem change_sets_draft (newText : String) (st : AppState) :
    (handleChange newText st).inputValue = newText ∧
      (handleChange newText st).items = st.items :=
  ⟨rfl, rfl⟩

/-- C8: every submit invocation, accepted or rejected, yields an event
on which the platform default has been suppressed, and the resulting
event is exactly `preventDefault` of the incoming one regardless of the
validation outcome — the suppression does not depend on the check. -/
theorem submit_prevents_default (e : FormEvent) (st : AppState) :
    (handleSubmit e st).1.defaultPrevented = true ∧
      (handleSubmit e st).1 = preventDefault e := by
  by_cases h : jsTrim st.inputValue ≠ "" <;>
    simp [handleSubmit, preventDefault, h]

/-- C9: rendering is deterministic, idempotent and side-effect-free with
respect to application state: a render pass returns the state unchanged,
and a second render pass on the resulting state produces the identical
output and again the same state. -/
theorem render_idempotent (st : AppState) :
    (renderStep st).2 = st ∧
      (renderStep (renderStep st).2).1 = (renderStep st).1 ∧
      (renderStep (renderStep st).2).2 = st :=
  ⟨rfl, rfl, rfl⟩

/-- C10: the `ListItem` component renders its input string verbatim: its
output is an `<li>` whose content is exactly the text node of the
unmodified input string. -/
theorem list_item_verbatim (s : String) :
    (ListItem s).childrenOf = [Node.text s] ∧
      Node.tagOf (ListItem s) = some "li" :=
  ⟨rfl, rfl⟩

/-- C3: from the initial state, every state reachable by any sequence of
change and submit events has an item list in which no element is empty
after trimming. -/
theorem reachable_invariant (evs : List Event) : validItems (run evs).items :=
  foldl_step_valid evs initialState (fun x hx => absurd hx (by simp [initialState]))

/-- C4: submitting a valid draft `s1` and then a valid draft `s2` (each
entered via the change handler) appends `[s1, s2]` in that order at the
end of the item list, preserving all prior elements and their order; in
particular from an empty list the result is exactly `[s1, s2]`. -/
theorem submit_sequence_order (s1 s2 : String) (ea eb : FormEvent) (st : AppState)
    (h1 : jsTrim s1 ≠ "") (h2 : jsTrim s2 ≠ "") :
    (handleSubmit eb (handleChange s2
        (handleSubmit ea (handleChange s1 st)).2)).2.items
      = st.items ++ [s1, s2] := by
  simp [handleChange, handleSubmit, h1, h2]

/-- Witness for C4: "Milk" then "Eggs" from the initial empty state. -/
theorem submit_sequence_order_witness :
    jsTrim "Milk" ≠ "" ∧ jsTrim "Eggs" ≠ "" ∧
      (handleSubmit ⟨false⟩ (handleChange "Eggs"
          (handleSubmit ⟨false⟩ (handleChange "Milk" initialState)).2)).2.items
        = initialState.items ++ ["Milk", "Eggs"] :=
  ⟨by decide, by decide,
    submit_sequence_order "Milk" "Eggs" ⟨false⟩ ⟨false⟩ initialState
      (by decide) (by decide)⟩

/-- C5: with a non-empty item list the conditional renders exactly the
`List` component applied to the items; with an empty item list it
renders the fixed placeholder paragraph, which is not a `<ul>` list
container. -/
theorem render_rule (items : List String) :
    (items ≠ [] → listArea items = ListComponent items) ∧
      (items = [] →
        listArea items = placeholder ∧ Node.tagOf (listArea items) ≠ some "ul") := by
  refine ⟨fun h => ?_, fun h => ?_⟩
  · simp only [listArea, gt_iff_lt, if_pos (List.length_pos.mpr h)]
  · subst h
    exact ⟨rfl, by decide⟩

/-- Witness for C5 at the concrete lists ["Milk"] and []. -/
theorem render_rule_witness :
    listArea ["Milk"] = ListComponent ["Milk"] ∧
      listArea [] = placeholder ∧
      Node.tagOf (listArea ([] : List String)) ≠ some "ul" :=
  ⟨(render_rule ["Milk"]).1 (by decide),
    ((render_rule []).2 rfl).1,
    ((render_rule []).2 rfl).2⟩

/-- Helper: the indexed map preserves length. -/
theorem mapWithIndexFrom_length {α β : Type} (f : Nat → α → β) (n : Nat)
    (l : List α) : (mapWithIndexFrom f n l).length = l.length := by
  induction l generalizing n with
  | nil => rfl
  | cons a as ih => simp [mapWithIndexFrom, ih]

/-- Helper: the element at position `i` of the indexed map is the callback
applied to the shifted index and the source element at position `i`. -/
theorem mapWithIndexFrom_get {α β : Type} (f : Nat → α → β) (n : Nat)
    (l : List α) (i : Nat) (hi : i < l.length)
    (hm : i < (mapWithIndexFrom f n l).length) :
    (mapWithIndexFrom f n l).get ⟨i, hm⟩ = f (n + i) (l.get ⟨i, hi⟩) := by
  induction l generalizing n i with
  | nil => exact absurd hi (by simp)
  | cons a as ih =>
    cases i with
    | zero => rfl
    | succ j =>
      have hj : j < as.length := Nat.lt_of_succ_lt_succ hi
      have hm' : j < (mapWithIndexFrom f (n + 1) as).length := by
        rw [mapWithIndexFrom_length]; exact hj
      have h := ih (n + 1) j hj hm'
      have hn : n + 1 + j = n + (j + 1) := by omega
      rw [hn] at h
      exact h

/-- C6: the `List` component renders exactly one keyed `ListItem` per
element of the input: its `<ul>` has as many children as the input has
elements, and the child at each position `i` is the `ListItem` of the
input element at position `i`, carrying `i` as its key. -/
theorem list_renders_each_item (items : List String) :
    (ListComponent items).childrenOf.length = items.length ∧
      ∀ i (hi : i < items.length)
        (hc : i < (ListComponent items).childrenOf.length),
        (ListComponent items).childrenOf.get ⟨i, hc⟩ =
          withKey i (ListItem (items.get ⟨i, hi⟩)) := by
  constructor
  · exact mapWithIndexFrom_length _ 0 items
  · intro i hi hc
    have h := mapWithIndexFrom_get
      (fun index item => withKey index (ListItem item)) 0 items i hi hc
    simp only [Nat.zero_add] at h
    exact h

/-- Witness for C6 at the concrete list ["Milk", "Eggs"], position 1. -/
theorem list_renders_each_item_witness :
    (ListComponent ["Milk", "Eggs"]).childrenOf.length = 2 ∧
      (ListComponent ["Milk", "Eggs"]).childrenOf.get ⟨1, by decide⟩ =
        withKey 1 (ListItem "Eggs") :=
  ⟨(list_renders_each_item ["Milk", "Eggs"]).1,
    (list_renders_each_item ["Milk", "Eggs"]).2 1 (by decide) (by decide)⟩

end StateIntro
